import Mathlib

/-!
Verification of the unity-mcp Python server's patch engine, edit normalizer
and resource path guard, via a shallow embedding of the relevant code from
`UnityMcpBridge/UnityMcpServer~/src/tools/manage_script_edits.py` and
`UnityMcpBridge/UnityMcpServer~/src/tools/resource_tools.py`.

Modelling conventions:
* Python `str` values are embedded as `List Char` (one entry per code point).
* Python `dict` values (edit descriptors, options maps) are embedded as
  association lists `List (String × PyVal)` with unique keys; `dSet` updates
  an existing key in place and appends a fresh key at the end, matching
  CPython's insertion-order semantics, and `dPop` removes a key.
* Calls into the Python standard library (`re.search`, `re.sub`,
  `hashlib.sha256(...).hexdigest`, `difflib.unified_diff`,
  `base64.b64encode`) are not code of this repository; they are modelled as
  parameters collected in the `Env` structure, so every theorem below is
  universally quantified over their behaviour unless it pins them.
* An uncaught Python exception (e.g. calling `.strip()` on a non-string) is
  modelled as an error with the fixed text `uncaught exception`; the
  distinct `RuntimeError` messages raised on purpose by the code are kept
  verbatim.  ASCII case-folding and ASCII whitespace are used where Python
  would use Unicode tables; all string constants in the code are ASCII.
-/

namespace UnityMcp

/-- Embedded Python value: the subset of values that flows through the edit
pipeline (`str`, `int`, `bool`, `dict`, `None`). -/
inductive PyVal where
  | str (s : List Char)
  | int (i : Int)
  | bool (b : Bool)
  | dict (d : List (String × PyVal))
  | noneV
deriving Repr

/-- A Python dict with `String` keys, in insertion order, keys unique. -/
abbrev Dict := List (String × PyVal)

/-- `d.get(k)` : first binding of the key, if any. -/
def dGet : Dict → String → Option PyVal
  | [], _ => Option.none
  | (k, v) :: rest, key => if k == key then some v else dGet rest key

/-- `k in d`. -/
def dHas (d : Dict) (k : String) : Bool := (dGet d k).isSome

/-- `d.get(k, default)`. -/
def dGetD (d : Dict) (k : String) (dflt : PyVal) : PyVal := (dGet d k).getD dflt

/-- `d[k] = v` : update in place if the key exists, else append. -/
def dSet : Dict → String → PyVal → Dict
  | [], key, v => [(key, v)]
  | (k, w) :: rest, key, v =>
    if k == key then (k, v) :: rest else (k, w) :: dSet rest key v

/-- `d.pop(k)` (the removed dict; the code always uses the popped value via
`dGet` first). -/
def dPop : Dict → String → Dict
  | [], _ => []
  | (k, w) :: rest, key => if k == key then rest else (k, w) :: dPop rest key

/-- `d.setdefault(k, v)`. -/
def dSetdefault (d : Dict) (k : String) (v : PyVal) : Dict :=
  if dHas d k then d else dSet d k v

/-- Python truthiness of an embedded value. -/
def truthy : PyVal → Bool
  | .str s => !s.isEmpty
  | .int i => i != 0
  | .bool b => b
  | .dict d => !d.isEmpty
  | .noneV => false

/-- Truthiness of `d.get(k)` with a default for a missing key, as in
`edit.get("allow_noop", True)` used under `if`. -/
def truthyD (v : Option PyVal) (dflt : Bool) : Bool :=
  match v with
  | some w => truthy w
  | Option.none => dflt

/-- First key of `keys` whose value in `e` is truthy (models the Python
idiom `e.get(k1) or e.get(k2) or ...`). -/
def firstTruthyKey (e : Dict) : List String → Option PyVal
  | [] => Option.none
  | k :: rest =>
    match dGet e k with
    | some v => if truthy v then some v else firstTruthyKey e rest
    | Option.none => firstTruthyKey e rest

/-- ASCII whitespace as stripped by `str.strip()` (the code only strips
ASCII op names). -/
def isPyWs (c : Char) : Bool :=
  c == ' ' || c == '\t' || c == '\n' || c == '\r' || c.val == 11 || c.val == 12

/-- `s.strip()`. -/
def stripL (s : List Char) : List Char :=
  ((s.dropWhile isPyWs).reverse.dropWhile isPyWs).reverse

/-- `s.lower()` (ASCII). -/
def toLowerL (s : List Char) : List Char := s.map Char.toLower

/-- `(e.get("op") or e.get("operation") or e.get("type") or e.get("mode")
or "").strip().lower()` — the op-kind extraction used throughout
`manage_script_edits.py`.  A truthy non-string value makes Python raise
`AttributeError` on `.strip()`; that is the `.error` case. -/
def opOfE (e : Dict) : Except Unit (List Char) :=
  match firstTruthyKey e ["op", "operation", "type", "mode"] with
  | Option.none => .ok []
  | some (.str s) => .ok (toLowerL (stripL s))
  | some _ => .error ()

/-- `(e.get("position") or dflt).lower()` — crashes on a truthy non-string. -/
def posOf (e : Dict) (dflt : List Char) : Except Unit (List Char) :=
  match dGet e "position" with
  | some v =>
    if truthy v then
      match v with
      | .str s => .ok (toLowerL s)
      | _ => .error ()
    else .ok (toLowerL dflt)
  | Option.none => .ok (toLowerL dflt)

/-- Parse a Python `int(...)` literal from a string: optional ASCII sign and
decimal digits after stripping whitespace (underscore separators and
non-ASCII digits are not modelled; the code never passes them). -/
def parsePyInt (s : List Char) : Option Int :=
  let t := stripL s
  let signed : Int × List Char :=
    match t with
    | '-' :: r => (-1, r)
    | '+' :: r => (1, r)
    | r => (1, r)
  if signed.2.isEmpty || !(signed.2.all Char.isDigit) then Option.none
  else some (signed.1 * (signed.2.foldl (fun n c => n * 10 + (c.toNat - '0'.toNat)) 0 : Nat))

/-- `int(v)` on an embedded value; `.error` is an uncaught
`TypeError`/`ValueError`. -/
def pyToIntE : PyVal → Except Unit Int
  | .int i => .ok i
  | .bool b => .ok (if b then 1 else 0)
  | .str s =>
    match parsePyInt s with
    | some i => .ok i
    | Option.none => .error ()
  | _ => .error ()

/-- Line-break code points recognised by Python `str.splitlines`. -/
def isLineBreakChar (c : Char) : Bool :=
  c == '\n' || c == '\r' || c.val == 11 || c.val == 12 || c.val == 28 ||
  c.val == 29 || c.val == 30 || c.val == 133 || c.val == 0x2028 || c.val == 0x2029

/-- Helper for `splitlines(keepends=True)`: `acc` is the reversed current
line. -/
def splitlinesKeepAux (acc : List Char) : List Char → List (List Char)
  | [] => if acc.isEmpty then [] else [acc.reverse]
  | '\r' :: '\n' :: rest => (acc.reverse ++ ['\r', '\n']) :: splitlinesKeepAux [] rest
  | c :: rest =>
    if isLineBreakChar c then (acc.reverse ++ [c]) :: splitlinesKeepAux [] rest
    else splitlinesKeepAux (c :: acc) rest

/-- `text.splitlines(keepends=True)`. -/
def splitlinesKeep (t : List Char) : List (List Char) := splitlinesKeepAux [] t

/-- Drop a single trailing line break (`\r\n` counts as one) from a kept
line. -/
def dropEol (l : List Char) : List Char :=
  let r := l.reverse
  match r with
  | '\n' :: '\r' :: rest => rest.reverse
  | c :: rest => if isLineBreakChar c then rest.reverse else l
  | [] => l

/-- `text.splitlines()` (no keepends). -/
def splitlinesNo (t : List Char) : List (List Char) :=
  (splitlinesKeep t).map dropEol

/-- `s.endswith("\n")`. -/
def endsNl (s : List Char) : Bool :=
  match s.getLast? with
  | some c => c == '\n'
  | Option.none => false

/-- `s` ends with exactly one `\n` (ends with `"\n"` but not `"\n\n"`):
the reading of "exactly one trailing newline at the junction" used by the
spec sentence behind claim C7. -/
def endsWithExactlyOneNewline (s : List Char) : Bool :=
  endsNl s && !(endsNl (s.dropLast))

/-- External Python standard-library services used by the patch engine,
supplied as parameters of the embedding:
`search pat t` models `re.search(pat, t, re.MULTILINE)` returning the
character span of the first match; `sub pat repl count ic t` models
`re.sub(pat, repl, t, count=count, flags=...)`; `hash` models
`hashlib.sha256(t.encode()).hexdigest()`; `udiff a b n` models
`list(difflib.unified_diff(a, b, fromfile="before", tofile="after", n=n))`;
`b64 t` models `base64.b64encode(t.encode()).decode()`. -/
structure Env where
  search : List Char → List Char → Option (Nat × Nat)
  sub : List Char → List Char → Int → Bool → List Char → List Char
  hash : List Char → List Char
  udiff : List (List Char) → List (List Char) → Nat → List (List Char)
  b64 : List Char → List Char

/-- Error text standing for any uncaught Python exception
(`AttributeError` / `TypeError` / `ValueError`) raised by stray non-string
or non-numeric descriptor fields. -/
def uncaughtMsg : List Char := "uncaught exception".data

/-- `RuntimeError` text for a missing op. -/
def msgOpRequired : List Char :=
  "op is required; allowed: anchor_insert, prepend, append, replace_range, regex_replace. Use 'op' (aliases accepted: type/mode/operation).".data

/-- Branch `op == "prepend"` of `_apply_edits_locally` (lines 27–29):
`text = (p if p.endswith("\n") else p + "\n") + text`. -/
def prependApply (t : List Char) (e : Dict) : Except (List Char) (List Char) :=
  match dGetD e "text" (PyVal.str []) with
  | .str p => .ok ((if endsNl p then p else p ++ ['\n']) ++ t)
  | _ => .error uncaughtMsg

/-- Branch `op == "append"` (lines 30–36): a newline is appended to the
current text if missing, then the appended text, then a final newline if
still missing. -/
def appendApply (t : List Char) (e : Dict) : Except (List Char) (List Char) :=
  match dGetD e "text" (PyVal.str []) with
  | .str a =>
    let t1 := if endsNl t then t else t ++ ['\n']
    let t2 := t1 ++ a
    .ok (if endsNl t2 then t2 else t2 ++ ['\n'])
  | _ => .error uncaughtMsg

/-- Branch `op == "anchor_insert"` (lines 37–48): first regex match of the
anchor in multiline mode; on a miss, silently skip when `allow_noop`
(default true) is truthy, else raise `anchor not found`. -/
def anchorInsertApply (env : Env) (t : List Char) (e : Dict) : Except (List Char) (List Char) :=
  match posOf e "before".data with
  | .error _ => .error uncaughtMsg
  | .ok position =>
    match dGetD e "anchor" (PyVal.str []) with
    | .str anchor =>
      match env.search anchor t with
      | Option.none =>
        if truthyD (dGet e "allow_noop") true then .ok t
        else .error ("anchor not found: ".data ++ anchor)
      | some sp =>
        match dGetD e "text" (PyVal.str []) with
        | .str ins =>
          let idx := if position == "before".data then sp.1 else sp.2
          .ok (t.take idx ++ ins ++ t.drop idx)
        | _ => .error uncaughtMsg
    | _ => .error uncaughtMsg

/-- `int(edit.get("endLine", start_line))` (line 51): the default for a
missing `endLine` is the already-converted start line. -/
def endLineOf (e : Dict) (startLine : Int) : Except Unit Int :=
  match dGet e "endLine" with
  | Option.none => .ok startLine
  | some v => pyToIntE v

/-- Branch `op == "replace_range"` (lines 49–62): 1-based inclusive line
range against `splitlines(keepends=True)`; out-of-bounds raises before any
text is produced; the replacement is normalized to end with a newline. -/
def replaceRangeApply (t : List Char) (e : Dict) : Except (List Char) (List Char) :=
  match pyToIntE (dGetD e "startLine" (PyVal.int 1)) with
  | .error _ => .error uncaughtMsg
  | .ok startLine =>
    match endLineOf e startLine with
    | .error _ => .error uncaughtMsg
    | .ok endLine =>
      if startLine < 1 || endLine < startLine ||
         endLine > ((splitlinesKeep t).length : Int) + 1 then
        .error "replace_range out of bounds".data
      else
        match dGetD e "text" (PyVal.str []) with
        | .str rep =>
          let a := (startLine - 1).toNat
          let b := min endLine.toNat (splitlinesKeep t).length
          let rep2 := if !rep.isEmpty && !endsNl rep then rep ++ ['\n'] else rep
          .ok (((splitlinesKeep t).take a).flatten ++ rep2 ++ ((splitlinesKeep t).drop b).flatten)
        | _ => .error uncaughtMsg

/-- Branch `op == "regex_replace"` (lines 63–70). -/
def regexReplaceApply (env : Env) (t : List Char) (e : Dict) : Except (List Char) (List Char) :=
  match pyToIntE (dGetD e "count" (PyVal.int 0)) with
  | .error _ => .error uncaughtMsg
  | .ok count =>
    match dGetD e "pattern" (PyVal.str []), dGetD e "replacement" (PyVal.str []) with
    | .str pattern, .str repl =>
      let ic := truthyD (dGet e "ignore_case") false
      .ok (env.sub pattern repl count ic t)
    | _, _ => .error uncaughtMsg

/-- One iteration of the loop body of `_apply_edits_locally`
(manage_script_edits.py lines 10–73): dispatches on the extracted op kind,
applying a single textual edit to the current text or failing with the
exact `RuntimeError` message. -/
def applyOneEdit (env : Env) (t : List Char) (e : Dict) : Except (List Char) (List Char) :=
  match opOfE e with
  | .error _ => .error uncaughtMsg
  | .ok op =>
    if op.isEmpty then .error msgOpRequired
    else if op == "prepend".data then prependApply t e
    else if op == "append".data then appendApply t e
    else if op == "anchor_insert".data then anchorInsertApply env t e
    else if op == "replace_range".data then replaceRangeApply t e
    else if op == "regex_replace".data then regexReplaceApply env t e
    else
      .error ("unknown edit op: ".data ++ op ++ "; allowed: anchor_insert, prepend, append, replace_range, regex_replace. Use 'op' (aliases accepted: type/mode/operation).".data)

/-- `_apply_edits_locally(original_text, edits)` (manage_script_edits.py
lines 8–74): folds the edits in list order over the text; the first failing
op aborts the whole batch. -/
def apply_edits_locally (env : Env) : List Char → List Dict → Except (List Char) (List Char)
  | t, [] => .ok t
  | t, e :: rest =>
    match applyOneEdit env t e with
    | .error m => .error m
    | .ok t' => apply_edits_locally env t' rest

/-- `(e.get("position") or dflt).strip().lower()` as used by the
`anchor_method` alias resolution (line 238). -/
def posOfSL (e : Dict) (dflt : List Char) : Except Unit (List Char) :=
  match dGet e "position" with
  | some v =>
    if truthy v then
      match v with
      | .str s => .ok (toLowerL (stripL s))
      | _ => .error ()
    else .ok (toLowerL (stripL dflt))
  | Option.none => .ok (toLowerL (stripL dflt))

/-- Wrapper keys recognised by `_unwrap_and_alias` (lines 191–195), in
source order. -/
def wrapperKeys : List String :=
  ["replace_method", "insert_method", "delete_method", "replace_class",
   "delete_class", "anchor_insert", "anchor_replace", "anchor_delete"]

/-- First wrapper key of `keys` present in `e` with a dict value. -/
def findWrapper (e : Dict) : List String → Option (String × List (String × PyVal))
  | [] => Option.none
  | k :: rest =>
    match dGet e k with
    | some (.dict inner) => some (k, inner)
    | _ => findWrapper e rest

/-- `if src in e and dst not in e: e[dst] = e.pop(src)` — the alias-move
idiom of `_unwrap_and_alias`. -/
def aliasMove (e : Dict) (src dst : String) : Dict :=
  match dGet e src with
  | some v => if dHas e dst then e else dSet (dPop e src) dst v
  | Option.none => e

/-- `e.get("op") and e["op"].startswith("anchor_")` (line 245). -/
def opStartsAnchor (e : Dict) : Except Unit Bool :=
  match dGet e "op" with
  | some (.str s) => .ok (!s.isEmpty && ("anchor_".data.isPrefixOf s))
  | some v => if truthy v then .error () else .ok false
  | Option.none => .ok false

/-- `_unwrap_and_alias(edit)` (manage_script_edits.py lines 189–263):
unwraps single-key wrapper forms, canonicalizes the op string, resolves
field aliases, resolves `anchor_method`, and converts LSP-style `range`
edits to 1-based `replace_range` fields. -/
def unwrap_and_alias (edit : Dict) : Except Unit Dict := do
  let edit0 : Dict :=
    match findWrapper edit wrapperKeys with
    | some kv => dSet kv.2 "op" (PyVal.str kv.1.data)
    | Option.none => edit
  let e := edit0
  let op ← opOfE e
  let e := if !op.isEmpty then dSet e "op" (PyVal.str op) else e
  let e := aliasMove e "class_name" "className"
  let e := aliasMove e "class" "className"
  let e := aliasMove e "method_name" "methodName"
  let e := aliasMove e "target" "methodName"
  let e := aliasMove e "method" "methodName"
  let e := aliasMove e "new_content" "replacement"
  let e := aliasMove e "newMethod" "replacement"
  let e := aliasMove e "new_method" "replacement"
  let e := aliasMove e "content" "replacement"
  let e := aliasMove e "after" "afterMethodName"
  let e := aliasMove e "after_method" "afterMethodName"
  let e := aliasMove e "before" "beforeMethodName"
  let e := aliasMove e "before_method" "beforeMethodName"
  let e ← (do
    match dGet e "anchor_method" with
    | some anchor =>
      let e := dPop e "anchor_method"
      let pos ← posOfSL e "after".data
      if pos == "before".data && !(dHas e "beforeMethodName") then
        return dSet e "beforeMethodName" anchor
      else if !(dHas e "afterMethodName") then
        return dSet e "afterMethodName" anchor
      else
        return e
    | Option.none => return e)
  let e := aliasMove e "anchorText" "anchor"
  let e ← (do
    if dHas e "pattern" && !(dHas e "anchor") then
      let b ← opStartsAnchor e
      if b then return aliasMove e "pattern" "anchor" else return e
    else
      return e)
  let e := aliasMove e "newText" "text"
  match dGet e "range" with
  | some (.dict rng) =>
    let e := dPop e "range"
    match dGetD rng "start" (PyVal.dict []), dGetD rng "end" (PyVal.dict []) with
    | .dict startD, .dict endD =>
      let sl ← pyToIntE (dGetD startD "line" (PyVal.int 0))
      let sc ← pyToIntE (dGetD startD "character" (PyVal.int 0))
      let el ← pyToIntE (dGetD endD "line" (PyVal.int 0))
      let ec ← pyToIntE (dGetD endD "character" (PyVal.int 0))
      let e := dSet e "op" (PyVal.str "replace_range".data)
      let e := dSet e "startLine" (PyVal.int (sl + 1))
      let e := dSet e "startCol" (PyVal.int (sc + 1))
      let e := dSet e "endLine" (PyVal.int (el + 1))
      let e := dSet e "endCol" (PyVal.int (ec + 1))
      if dHas edit0 "newText" && !(dHas e "text") then
        return dSet e "text" (dGetD edit0 "newText" (PyVal.str []))
      else
        return e
    | _, _ => throw ()
  | _ => return e

/-- Op kinds for which a missing `className` defaults to the script name
(line 271), in source order. -/
def classDefaultKinds : List (List Char) :=
  ["replace_class".data, "delete_class".data, "replace_method".data,
   "delete_method".data, "insert_method".data]

/-- One iteration of the normalization loop of `script_apply_edits`
(lines 266–293): `_unwrap_and_alias` plus className defaulting and the
`text_replace` / `regex_delete` / `regex_replace`-replacement /
empty-`anchor_insert` rewrites. -/
def normalizeOne (name : List Char) (raw : Dict) : Except Unit Dict := do
  let e ← unwrap_and_alias raw
  let op ← opOfE e
  let e := if classDefaultKinds.contains op && !(truthy (dGetD e "className" PyVal.noneV))
           then dSet e "className" (PyVal.str name) else e
  if op == "text_replace".data then
    return dSet e "op" (PyVal.str "replace_range".data)
  else if op == "regex_delete".data then
    return dSetdefault (dSet e "op" (PyVal.str "regex_replace".data)) "text" (PyVal.str [])
  else
    let e := if op == "regex_replace".data && !(dHas e "replacement") then
        (if dHas e "text" then dSet e "replacement" (dGetD e "text" (PyVal.str []))
         else if dHas e "insert" || dHas e "content" then
           dSet e "replacement"
             (match firstTruthyKey e ["insert", "content"] with
              | some v => v
              | Option.none => PyVal.str [])
         else e)
      else e
    if op == "anchor_insert".data &&
       !(truthyD (dGet e "text") false || truthyD (dGet e "insert") false ||
         truthyD (dGet e "content") false || truthyD (dGet e "replacement") false) then
      return dSet e "op" (PyVal.str "anchor_delete".data)
    else
      return e

/-- `e.get("op", "")` compared against literal op names in the validation
loop (line 303); a non-string value never equals any of them. -/
def opFieldStr (e : Dict) : List Char :=
  match dGet e "op" with
  | some (.str s) => s
  | _ => []

/-- Validation of one normalized edit (lines 302–356), returning the exact
message of the `error_with_hint` result when a required field is missing
(the structured `expected`/`rewrite_suggestion` payloads attached to that
result are constants and are not modelled). -/
def validateOne (e : Dict) : Except Unit (Option (List Char)) := do
  let op := opFieldStr e
  if op == "replace_method".data then
    if !(truthy (dGetD e "methodName" PyVal.noneV)) then
      return some "replace_method requires 'methodName'.".data
    else if !(truthy (dGetD e "replacement" PyVal.noneV) || truthy (dGetD e "text" PyVal.noneV)) then
      return some "replace_method requires 'replacement' (inline or base64).".data
    else
      return Option.none
  else if op == "insert_method".data then
    if !(truthy (dGetD e "replacement" PyVal.noneV) || truthy (dGetD e "text" PyVal.noneV)) then
      return some "insert_method requires a non-empty 'replacement'.".data
    else
      let pos ← posOf e []
      if pos == "after".data && !(truthy (dGetD e "afterMethodName" PyVal.noneV)) then
        return some "insert_method with position='after' requires 'afterMethodName'.".data
      else if pos == "before".data && !(truthy (dGetD e "beforeMethodName" PyVal.noneV)) then
        return some "insert_method with position='before' requires 'beforeMethodName'.".data
      else
        return Option.none
  else if op == "delete_method".data then
    if !(truthy (dGetD e "methodName" PyVal.noneV)) then
      return some "delete_method requires 'methodName'.".data
    else
      return Option.none
  else if op == "anchor_insert".data || op == "anchor_replace".data || op == "anchor_delete".data then
    if !(truthy (dGetD e "anchor" PyVal.noneV)) then
      return some (op ++ " requires 'anchor' (regex).".data)
    else if (op == "anchor_insert".data || op == "anchor_replace".data) &&
            !(truthy (dGetD e "text" PyVal.noneV) || truthy (dGetD e "replacement" PyVal.noneV)) then
      return some (op ++ " requires 'text'.".data)
    else
      return Option.none
  else
    return Option.none

/-- First validation error of the batch, in list order. -/
def firstValidationError : List Dict → Except Unit (Option (List Char))
  | [] => .ok Option.none
  | e :: rest =>
    match validateOne e with
    | .error u => .error u
    | .ok (some m) => .ok (some m)
    | .ok Option.none => firstValidationError rest

/-- Structural op kinds triggering verbatim forwarding as an `edit` command
(line 360), in source order. -/
def structuralForwardKinds : List (List Char) :=
  ["replace_class".data, "delete_class".data, "replace_method".data, "delete_method".data,
   "insert_method".data, "anchor_insert".data, "anchor_delete".data, "anchor_replace".data]

/-- Scan of the forwarding loop (lines 358–360): true as soon as an edit's
op kind is structural. -/
def forwardScan : List Dict → Except Unit Bool
  | [] => .ok false
  | e :: rest =>
    match opOfE e with
    | .error u => .error u
    | .ok op => if structuralForwardKinds.contains op then .ok true else forwardScan rest

/-- Op kinds of the batch, in order (the `text_ops` set comprehension at
line 406; membership tests make the set/list distinction immaterial). -/
def opsOfEdits : List Dict → Except Unit (List (List Char))
  | [] => .ok []
  | e :: rest =>
    match opOfE e with
    | .error u => .error u
    | .ok op =>
      match opsOfEdits rest with
      | .error u => .error u
      | .ok ops => .ok (op :: ops)

/-- Normalization of the batch (loop at lines 266–293), failing at the
first edit whose normalization raises. -/
def normalizeEdits (name : List Char) : List Dict → Except Unit (List Dict)
  | [] => .ok []
  | r :: rest =>
    match normalizeOne name r with
    | .error u => .error u
    | .ok e =>
      match normalizeEdits name rest with
      | .error u => .error u
      | .ok es => .ok (e :: es)

/-- `(x.get("op") or "").lower()` over a normalized edit (line 362).  After
normalization the `op` value is a string whenever it is truthy, so the
non-string case maps to the empty string. -/
def lowerOpField (x : Dict) : List Char :=
  match dGet x "op" with
  | some (.str s) => toLowerL s
  | _ => []

/-- Options attached to a structural forward (lines 361–365): `applyMode`
defaults to `sequential` when the batch mixes `insert_method` and
`replace_method`. -/
def structOpts (es : List Dict) (options : Dict) : Dict :=
  let ops := es.map lowerOpField
  if ops.contains "insert_method".data && ops.contains "replace_method".data &&
     !(dHas options "applyMode")
  then dSet options "applyMode" (PyVal.str "sequential".data)
  else options

/-- Index of the last `'\n'` in the list, scanning with a running index. -/
def lastNlIndexAux : List Char → Nat → Option Nat → Option Nat
  | [], _, best => best
  | c :: rest, i, best => lastNlIndexAux rest (i + 1) (if c == '\n' then some i else best)

/-- `line_col_from_index(idx)` (lines 412–417): 1-based line and column of a
character index in `t`. -/
def lineColFromIndex (t : List Char) (idx : Nat) : Int × Int :=
  let pre := t.take idx
  let line : Int := (pre.count '\n' : Nat) + 1
  match lastNlIndexAux pre 0 Option.none with
  | some k => (line, ((idx : Int) - ((k : Int) + 1)) + 1)
  | Option.none => (line, (idx : Int) + 1)

/-- `text_field = e.get("text") or e.get("insert") or e.get("content") or ""`
(line 424). -/
def textFieldOf (e : Dict) : PyVal :=
  match firstTruthyKey e ["text", "insert", "content"] with
  | some v => v
  | Option.none => PyVal.str []

/-- Message standing for the `except` clause of the conversion block
(line 498), which wraps any uncaught exception text. -/
def convFailMsg : List Char := "Edit conversion failed: uncaught exception".data

/-- Conversion of textual edits to `apply_text_edits` spans (lines
410–472): walks the edits keeping a local snapshot `cur` of the text so
that later anchors see earlier insertions, and accumulates the span dicts
in `acc`. -/
def convertLoop (env : Env) : List Char → List Dict → List Dict → Except (List Char) (List Char × List Dict)
  | cur, acc, [] => .ok (cur, acc)
  | cur, acc, e :: rest =>
    match opOfE e with
    | .error _ => .error convFailMsg
    | .ok op =>
      let tf := textFieldOf e
      if op == "anchor_insert".data then
        let anchorV :=
          match dGet e "anchor" with
          | some v => if truthy v then v else PyVal.str []
          | Option.none => PyVal.str []
        match posOf e "before".data with
        | .error _ => .error convFailMsg
        | .ok position =>
          match anchorV with
          | .str anchor =>
            match env.search anchor cur with
            | Option.none => .error ("anchor not found: ".data ++ anchor)
            | some sp =>
              let idx := if position == "before".data then sp.1 else sp.2
              let lc := lineColFromIndex cur idx
              let ntv := if truthy tf then tf else PyVal.str []
              let d : Dict := [("startLine", PyVal.int lc.1), ("startCol", PyVal.int lc.2),
                               ("endLine", PyVal.int lc.1), ("endCol", PyVal.int lc.2),
                               ("newText", ntv)]
              match ntv with
              | .str ins => convertLoop env (cur.take idx ++ ins ++ cur.drop idx) (acc ++ [d]) rest
              | _ => .error convFailMsg
          | _ => .error convFailMsg
      else if op == "replace_range".data then
        if dHas e "startLine" then
          match pyToIntE (dGetD e "startLine" (PyVal.int 1)),
                pyToIntE (dGetD e "startCol" (PyVal.int 1)),
                pyToIntE (dGetD e "endLine" (PyVal.int 1)),
                pyToIntE (dGetD e "endCol" (PyVal.int 1)) with
          | .ok sl, .ok sc, .ok el, .ok ec =>
            let d : Dict := [("startLine", PyVal.int sl), ("startCol", PyVal.int sc),
                             ("endLine", PyVal.int el), ("endCol", PyVal.int ec),
                             ("newText", tf)]
            convertLoop env cur (acc ++ [d]) rest
          | _, _, _, _ => .error convFailMsg
        else
          .error "replace_range requires startLine/startCol/endLine/endCol".data
      else if op == "regex_replace".data then
        let patternV :=
          match dGet e "pattern" with
          | some v => if truthy v then v else PyVal.str []
          | Option.none => PyVal.str []
        match patternV with
        | .str pattern =>
          match env.search pattern cur with
          | Option.none => convertLoop env cur acc rest
          | some sp =>
            let lc1 := lineColFromIndex cur sp.1
            let lc2 := lineColFromIndex cur sp.2
            let d : Dict := [("startLine", PyVal.int lc1.1), ("startCol", PyVal.int lc1.2),
                             ("endLine", PyVal.int lc2.1), ("endCol", PyVal.int lc2.2),
                             ("newText", tf)]
            match tf with
            | .str r => convertLoop env (cur.take sp.1 ++ r ++ cur.drop sp.2) (acc ++ [d]) rest
            | _ => .error convFailMsg
        | _ => .error convFailMsg
      else
        .error ("Unsupported text edit op for server-side apply_text_edits: ".data ++ op)

/-- Op kinds named `structured_kinds` at line 407. -/
def structuredKinds : List (List Char) :=
  ["replace_class".data, "delete_class".data, "replace_method".data, "delete_method".data,
   "insert_method".data, "anchor_insert".data]

/-- Anchor-only op kinds of the check at line 501. -/
def anchorKinds : List (List Char) :=
  ["anchor_insert".data, "anchor_delete".data, "anchor_replace".data]

/-- `text_ops.issubset(kinds)`. -/
def subsetB (ops kinds : List (List Char)) : Bool := ops.all (fun o => kinds.contains o)

/-- Remote commands sent by `script_apply_edits` through
`send_command_with_retry("manage_script", ...)`, keeping the fields the
claims are about (`action`, the forwarded edits, `precondition_sha256`,
the options map, the encoded contents). -/
inductive Sent where
  | readCmd
  | editCmd (edits : List Dict) (options : Dict)
  | applyTextEdits (edits : List Dict) (precondition_sha256 : List Char) (options : Dict)
  | updateCmd (encodedContents : List Char) (options : Dict)

/-- Result of a `script_apply_edits` call: either a local structured error
(with its message), a preview payload, a crash, or the response of the last
remote command of the trace (`forwarded`; the code returns that response
with the normalized edits echoed into its `data`). -/
inductive Outcome where
  | uncaught
  | validationError (msg : List Char)
  | forwarded
  | readFailed
  | noContents
  | failure (msg : List Char)
  | regexPreview (diff : List (List Char))
  | previewOnly (diff : List (List Char))

/-- Options map sent with `apply_text_edits` (lines 488–491) and with the
anchor-only `edit` forward (line 509). -/
def atOptions (options : Dict) : Dict :=
  [("refresh", PyVal.str "immediate".data),
   ("validate", dGetD options "validate" (PyVal.str "standard".data))]

/-- Everything `script_apply_edits` does after a successful read (lines
400–564): the preview flag, the `apply_text_edits` conversion, the
anchor-only forward, the regex-preview, the local application, the preview
diff, and the update write-back.  Returns the outcome and the remote
commands sent after the read. -/
def afterRead (env : Env) (contents : List Char) (es : List Dict) (options : Dict) :
    Outcome × List Sent :=
  match opsOfEdits es with
  | .error _ => (.uncaught, [])
  | .ok ops =>
    if !(subsetB ops structuredKinds) then
      match convertLoop env contents [] es with
      | .error m => (.failure m, [])
      | .ok res =>
        if res.2.isEmpty then
          (.failure "No applicable text edit spans computed (anchor not found or zero-length).".data, [])
        else
          (.forwarded, [.applyTextEdits res.2 (env.hash contents) (atOptions options)])
    else if subsetB ops anchorKinds then
      (.forwarded, [.editCmd es (atOptions options)])
    else if ops.contains "regex_replace".data && !(truthyD (dGet options "confirm") false) then
      match apply_edits_locally env contents es with
      | .error m => (.failure ("Preview failed: ".data ++ m), [])
      | .ok pt =>
        let d := env.udiff (splitlinesNo contents) (splitlinesNo pt) 2
        (.regexPreview (if d.length > 800 then d.take 800 ++ ["... (diff truncated) ...".data] else d), [])
    else
      match apply_edits_locally env contents es with
      | .error m => (.failure ("Edit application failed: ".data ++ m), [])
      | .ok newContents =>
        if truthyD (dGet options "preview") false then
          let d := env.udiff (splitlinesNo contents) (splitlinesNo newContents) 3
          (.previewOnly (if d.length > 2000 then d.take 2000 ++ ["... (diff truncated) ...".data] else d), [])
        else
          let o2 := dSetdefault (dSetdefault options "validate" (PyVal.str "standard".data))
                      "refresh" (PyVal.str "immediate".data)
          (.forwarded, [.updateCmd (env.b64 newContents) o2])

/-- `script_apply_edits(name, path, edits, options, ...)` (lines 174–564).
`readResp` abstracts the remote `read` response: `Option.none` models a
failed read, `some Option.none` a success without contents, and
`some (some t)` contents `t` (plain or base64-decoded).  The `name` passed
here is the one produced by `_normalize_script_locator`, which only
rewrites the script locator echoed to the remote side and supplies the
`className` default.  The returned list records the remote commands sent,
in order. -/
def script_apply_edits (env : Env) (readResp : Option (Option (List Char)))
    (name _path : List Char) (edits : List Dict) (options : Dict) : Outcome × List Sent :=
  match normalizeEdits name edits with
  | .error _ => (.uncaught, [])
  | .ok es =>
    match firstValidationError es with
    | .error _ => (.uncaught, [])
    | .ok (some m) => (.validationError m, [])
    | .ok Option.none =>
      match forwardScan es with
      | .error _ => (.uncaught, [])
      | .ok true => (.forwarded, [.editCmd es (structOpts es options)])
      | .ok false =>
        match readResp with
        | Option.none => (.readFailed, [.readCmd])
        | some Option.none => (.noContents, [.readCmd])
        | some (some contents) =>
          ((afterRead env contents es options).1,
           .readCmd :: (afterRead env contents es options).2)

/-- Modelled from the spec: the `UnityConnection` channel of
`unity_connection.py` is not part of the sources (only its test
`tests/test_transport_framing.py` is).  Per spec sections 4.1 and 6, the
channel owns at most one socket and a framing flag. -/
structure UnityConnection where
  sock : Option Unit
  use_framing : Bool

/-- Framing-capability marker the greeting line must contain (spec section
6: "the line must contain a token indicating framing support (e.g.
contains FRAMING=1)"). -/
def framingMarker : List Char := "FRAMING=1".data

/-- Substring containment over character lists (`marker in line`). -/
def containsSub (needle : List Char) : List Char → Bool
  | [] => needle.isPrefixOf ([] : List Char)
  | c :: rest => needle.isPrefixOf (c :: rest) || containsSub needle rest

/-- Modelled from the spec: `UnityConnection.connect` of
`unity_connection.py` (not in the sources).  Spec section 4.1: `connect()`
opens a socket, reads a newline-terminated greeting line within a bounded
timeout and inspects it for the framing-capability marker; if the marker is
absent or the greeting is malformed it fails closed — no unframed
fallback, the socket is closed, and failure is reported.  `greeting` is the
line read, `Option.none` standing for a malformed/absent greeting. -/
def connect (greeting : Option (List Char)) : Bool × UnityConnection :=
  match greeting with
  | Option.none => (false, ⟨Option.none, false⟩)
  | some g =>
    if containsSub framingMarker g then (true, ⟨some (), true⟩)
    else (false, ⟨Option.none, false⟩)

/-- Filesystem path for the resource tools, as pathlib parts: the list of
segments of an absolute path (the leading `/` anchor is implicit; the
project root is always absolute here). -/
abbrev PyPath := List (List Char)

/-- Splits a raw path string on `/` into pathlib parts, dropping empty
segments and `.` components (as `pathlib.PurePath` construction does);
`..` components are kept for `resolve`. -/
def pathSegs (s : List Char) : List (List Char) :=
  (s.splitOn '/').filter (fun seg => !seg.isEmpty && seg != ".".data)

/-- `project / raw` (pathlib `/`): an absolute `raw` (leading slash)
replaces the anchor, otherwise the segments are appended. -/
def joinPath (project : PyPath) (raw : List Char) : PyPath :=
  match raw with
  | '/' :: _ => pathSegs raw
  | _ => project ++ pathSegs raw

/-- Lexical core of `Path.resolve()`: walks the parts left to right with a
stack (kept reversed in `acc`); a `..` pops the last kept segment, and a
`..` at the root stays at the root.  Symbolic links are not modelled — the
embedding treats `resolve` as purely lexical normalization. -/
def resolveAux (acc : PyPath) : PyPath → PyPath
  | [] => acc.reverse
  | seg :: rest =>
    if seg == "..".data then resolveAux (acc.drop 1) rest
    else resolveAux (seg :: acc) rest

/-- `p.resolve()` on an absolute path, lexically. -/
def resolvePath (p : PyPath) : PyPath := resolveAux [] p

/-- Holds when `child.relative_to(parent)` succeeds: the parts of `parent`
are a prefix of the parts of `child` (pathlib's purely lexical check). -/
def relativeToOk (child parent : PyPath) : Bool := parent.isPrefixOf child

/-- `_resolve_safe_path_from_uri(uri, project)` (resource_tools.py lines
53–68): strips one of the three accepted scheme prefixes (else `None`),
joins under the project root, resolves, and fails unless the resolved path
is still under the project root. -/
def resolve_safe_path_from_uri (uri : List Char) (project : PyPath) : Option PyPath :=
  match (if "unity://path/".data.isPrefixOf uri then some (uri.drop 13)
         else if "file://".data.isPrefixOf uri then some (uri.drop 7)
         else if "Assets/".data.isPrefixOf uri then some uri
         else Option.none) with
  | Option.none => Option.none
  | some r =>
    if relativeToOk (resolvePath (joinPath project r)) project then
      some (resolvePath (joinPath project r))
    else Option.none

/-- Canonical spec resource URI served directly by `read_resource`
(line 132). -/
def specUri : List Char := "unity://spec/script-edits".data

/-- Result of `read_resource` / `find_in_file`, up to the point the claims
are about: `specServed` is the early return of the embedded script-edits
spec document (its constant JSON text and sha are not modelled),
`notFound` is the structured `Resource not found: <uri>` failure, and
`okText` carries the file text fetched from the filesystem (the optional
line/byte windowing of `read_resource` and the per-line regex matching of
`find_in_file` only post-process this text and are not modelled). -/
inductive RRes where
  | specServed
  | notFound (uri : List Char)
  | okText (text : List Char)

/-- Guard portion of `read_resource(uri, ...)` (resource_tools.py lines
116–196): the spec-URI early return, then `_resolve_safe_path_from_uri`,
then the existence check, with `fs` abstracting the filesystem (`None` for
a missing or non-regular file). -/
def read_resource (fs : PyPath → Option (List Char)) (project : PyPath) (uri : List Char) : RRes :=
  if uri == specUri then .specServed
  else
    match resolve_safe_path_from_uri uri project with
    | Option.none => .notFound uri
    | some p =>
      match fs p with
      | Option.none => .notFound uri
      | some text => .okText text

/-- Guard portion of `find_in_file(uri, pattern, ...)` (resource_tools.py
lines 253–289): same path guard, with no spec-URI special case. -/
def find_in_file (fs : PyPath → Option (List Char)) (project : PyPath) (uri : List Char) : RRes :=
  match resolve_safe_path_from_uri uri project with
  | Option.none => .notFound uri
  | some p =>
    match fs p with
    | Option.none => .notFound uri
    | some text => .okText text

/-- Concrete instantiation of the standard-library parameters used by
witnesses and counterexamples: a regex engine that never matches, an
identity substitution, a hash that prepends a marker character, an empty
diff and an identity encoder.  All theorems quantified over `Env` hold for
it in particular. -/
def env0 : Env :=
  ⟨fun _ _ => Option.none, fun _ _ _ _ t => t, fun t => 'H' :: t,
   fun _ _ _ => [], fun t => t⟩

/-- Concrete `replace_range` edit in line/column form, as a client of
`script_apply_edits` would send for a textual batch. -/
def rrEdit : Dict :=
  [("op", PyVal.str "replace_range".data), ("startLine", PyVal.int 1),
   ("startCol", PyVal.int 1), ("endLine", PyVal.int 1),
   ("endCol", PyVal.int 1), ("text", PyVal.str "x".data)]

/-- Options map requesting a preview/dry-run. -/
def previewOpts : Dict := [("preview", PyVal.bool true)]

/-- Concrete out-of-bounds `replace_range` edit (only one line of text, but
lines 5..5 requested). -/
def badRR : Dict :=
  [("op", PyVal.str "replace_range".data), ("startLine", PyVal.int 5), ("endLine", PyVal.int 5)]

/-- Junction normalization performed by the prepend/append branches: the
piece gets a newline appended exactly when it does not already end with
one. -/
def normNl (s : List Char) : List Char := if endsNl s then s else s ++ ['\n']

/-- Concrete valid structural edit (a `replace_method` with all required
fields). -/
def structEdit : Dict :=
  [("op", PyVal.str "replace_method".data), ("methodName", PyVal.str "Bar".data),
   ("replacement", PyVal.str "x".data)]

/-- The edit `structEdit` after normalization: `className` defaulted to the
script name `Foo`. -/
def structEditN : Dict :=
  [("op", PyVal.str "replace_method".data), ("methodName", PyVal.str "Bar".data),
   ("replacement", PyVal.str "x".data), ("className", PyVal.str "Foo".data)]

theorem applyOneEdit_prepend (env : Env) (t : List Char) (e : Dict)
    (hop : opOfE e = .ok "prepend".data) : applyOneEdit env t e = prependApply t e := by
  unfold applyOneEdit; rw [hop]; rfl

theorem applyOneEdit_append (env : Env) (t : List Char) (e : Dict)
    (hop : opOfE e = .ok "append".data) : applyOneEdit env t e = appendApply t e := by
  unfold applyOneEdit; rw [hop]; rfl

theorem applyOneEdit_anchor_insert (env : Env) (t : List Char) (e : Dict)
    (hop : opOfE e = .ok "anchor_insert".data) :
    applyOneEdit env t e = anchorInsertApply env t e := by
  unfold applyOneEdit; rw [hop]; rfl

theorem applyOneEdit_replace_range (env : Env) (t : List Char) (e : Dict)
    (hop : opOfE e = .ok "replace_range".data) :
    applyOneEdit env t e = replaceRangeApply t e := by
  unfold applyOneEdit; rw [hop]; rfl

theorem endsNl_normNl (s : List Char) : endsNl (normNl s) = true := by
  unfold normNl
  by_cases h : endsNl s
  · simp [h]
  · have h2 : endsNl s = false := by simpa using h
    rw [h2]
    simp [endsNl]

/-- Claim C5: applying the concatenated batch `es1 ++ es2` with the local
patch applier equals applying `es1` and then applying `es2` to its result —
sequential, order-respecting, deterministic application, failures
propagating from the first failing op. -/
theorem C5_sequential_batch_application (env : Env) (t : List Char) (es1 es2 : List Dict) :
    apply_edits_locally env t (es1 ++ es2) =
      (apply_edits_locally env t es1).bind (fun t2 => apply_edits_locally env t2 es2) := by
  induction es1 generalizing t with
  | nil => rfl
  | cons e rest ih =>
    simp only [List.cons_append, apply_edits_locally]
    cases applyOneEdit env t e
    · rfl
    · exact ih _

/-- Claim C2: a `replace_range` edit whose bounds violate
`start ≥ 1 ∧ start ≤ end ∧ end ≤ lineCount + 1` (relative to the current
text) makes the local applier fail with the `replace_range out of bounds`
error, aborting the batch: no partially-edited text is ever produced. -/
theorem C2_replace_range_out_of_bounds (env : Env) (t : List Char) (e : Dict)
    (rest : List Dict) (s en : Int)
    (hop : opOfE e = .ok "replace_range".data)
    (hs : pyToIntE (dGetD e "startLine" (PyVal.int 1)) = .ok s)
    (he : endLineOf e s = .ok en)
    (hbad : s < 1 ∨ en < s ∨ en > ((splitlinesKeep t).length : Int) + 1) :
    apply_edits_locally env t (e :: rest) = .error "replace_range out of bounds".data := by
  have h2 : replaceRangeApply t e = .error "replace_range out of bounds".data := by
    unfold replaceRangeApply
    split
    next heq => rw [hs] at heq; cases heq
    next startLine heq =>
      rw [hs] at heq
      injection heq with h1
      subst h1
      split
      next heq2 => rw [he] at heq2; cases heq2
      next endLine heq2 =>
        rw [he] at heq2
        injection heq2 with h1
        subst h1
        split
        · rfl
        next hcond =>
          exact absurd (by rcases hbad with h | h | h <;> simp [h]) hcond
  show (match applyOneEdit env t e with
        | .error m => Except.error m
        | .ok t2 => apply_edits_locally env t2 rest) = _
  rw [applyOneEdit_replace_range env t e hop, h2]

theorem C2_witness :
    opOfE badRR = .ok "replace_range".data ∧
    apply_edits_locally env0 "a\n".data [badRR] = .error "replace_range out of bounds".data :=
  ⟨rfl, C2_replace_range_out_of_bounds env0 "a\n".data badRR [] 5 5 rfl rfl rfl
    (Or.inr (Or.inr (by decide)))⟩

/-- Claim C6: an `anchor_insert` edit whose anchor regex has no match in the
current text is a silent no-op (text returned byte-identical) when
`allow_noop` is truthy — the default when the key is absent — and fails
with the `anchor not found` error when `allow_noop` is falsy. -/
theorem C6_anchor_insert_noop (env : Env) (t : List Char) (e : Dict) (pos anchor : List Char)
    (hop : opOfE e = .ok "anchor_insert".data)
    (hpos : posOf e "before".data = .ok pos)
    (hanch : dGetD e "anchor" (PyVal.str []) = PyVal.str anchor)
    (hsearch : env.search anchor t = Option.none) :
    (truthyD (dGet e "allow_noop") true = true →
        apply_edits_locally env t [e] = .ok t) ∧
    (truthyD (dGet e "allow_noop") true = false →
        apply_edits_locally env t [e] = .error ("anchor not found: ".data ++ anchor)) := by
  have h2 : anchorInsertApply env t e =
      (if truthyD (dGet e "allow_noop") true then .ok t
       else .error ("anchor not found: ".data ++ anchor)) := by
    unfold anchorInsertApply
    simp only [hpos, hanch, hsearch]
  constructor
  · intro hn
    show (match applyOneEdit env t e with
          | .error m => Except.error m
          | .ok t2 => apply_edits_locally env t2 []) = _
    rw [applyOneEdit_anchor_insert env t e hop, h2, if_pos hn]
    rfl
  · intro hn
    show (match applyOneEdit env t e with
          | .error m => Except.error m
          | .ok t2 => apply_edits_locally env t2 []) = _
    rw [applyOneEdit_anchor_insert env t e hop, h2, if_neg (by simp [hn])]

theorem C6_witness :
    truthyD (dGet [("op", PyVal.str "anchor_insert".data), ("anchor", PyVal.str "Z".data)] "allow_noop") true = true ∧
    apply_edits_locally env0 "hello".data
      [[("op", PyVal.str "anchor_insert".data), ("anchor", PyVal.str "Z".data)]] = .ok "hello".data :=
  ⟨rfl, (C6_anchor_insert_noop env0 "hello".data
      [("op", PyVal.str "anchor_insert".data), ("anchor", PyVal.str "Z".data)]
      "before".data "Z".data rfl rfl rfl rfl).1 rfl⟩

theorem prependApply_eq (t p : List Char) (e : Dict)
    (htext : dGetD e "text" (PyVal.str []) = PyVal.str p) :
    prependApply t e = .ok (normNl p ++ t) := by
  simp only [prependApply, htext, normNl]

theorem appendApply_eq (t p : List Char) (e : Dict)
    (htext : dGetD e "text" (PyVal.str []) = PyVal.str p) :
    appendApply t e = .ok (normNl t ++ (if endsNl (normNl t ++ p) then p else p ++ ['\n'])) := by
  simp only [appendApply, htext]
  by_cases hc : endsNl ((if endsNl t then t else t ++ ['\n']) ++ p)
  · simp [hc, normNl]
  · have hc2 : endsNl ((if endsNl t then t else t ++ ['\n']) ++ p) = false := by simpa using hc
    simp [hc2, normNl, List.append_assoc]

/-- Claim C7, amended: a `prepend` edit inserts `normNl p` (the given text
with one newline appended exactly when it does not already end with one)
before the content, and an `append` edit appends after `normNl t`; in both
cases the piece preceding the junction ends with at least one newline.
Pre-existing extra newlines are kept, not collapsed to exactly one. -/
theorem C7_junction_at_least_one_newline (env : Env) (t : List Char) (e : Dict) (p : List Char) :
    (opOfE e = .ok "prepend".data → dGetD e "text" (PyVal.str []) = PyVal.str p →
        apply_edits_locally env t [e] = .ok (normNl p ++ t) ∧ endsNl (normNl p) = true) ∧
    (opOfE e = .ok "append".data → dGetD e "text" (PyVal.str []) = PyVal.str p →
        apply_edits_locally env t [e] =
          .ok (normNl t ++ (if endsNl (normNl t ++ p) then p else p ++ ['\n'])) ∧
        endsNl (normNl t) = true) := by
  constructor
  · intro hop htext
    refine ⟨?_, endsNl_normNl p⟩
    show (match applyOneEdit env t e with
          | .error m => Except.error m
          | .ok t2 => apply_edits_locally env t2 []) = _
    rw [applyOneEdit_prepend env t e hop, prependApply_eq t p e htext]
    rfl
  · intro hop htext
    refine ⟨?_, endsNl_normNl t⟩
    show (match applyOneEdit env t e with
          | .error m => Except.error m
          | .ok t2 => apply_edits_locally env t2 []) = _
    rw [applyOneEdit_append env t e hop, appendApply_eq t p e htext]
    rfl

theorem C7_witness :
    (apply_edits_locally env0 "B".data
        [[("op", PyVal.str "prepend".data), ("text", PyVal.str "A".data)]] =
        .ok (normNl "A".data ++ "B".data) ∧ endsNl (normNl "A".data) = true) ∧
    (apply_edits_locally env0 "B".data
        [[("op", PyVal.str "append".data), ("text", PyVal.str "A".data)]] =
        .ok (normNl "B".data ++
          (if endsNl (normNl "B".data ++ "A".data) then "A".data else "A".data ++ ['\n'])) ∧
      endsNl (normNl "B".data) = true) :=
  ⟨(C7_junction_at_least_one_newline env0 "B".data
      [("op", PyVal.str "prepend".data), ("text", PyVal.str "A".data)] "A".data).1 rfl rfl,
   (C7_junction_at_least_one_newline env0 "B".data
      [("op", PyVal.str "append".data), ("text", PyVal.str "A".data)] "A".data).2 rfl rfl⟩

/-- Claim C7, counterexample to "exactly one trailing newline": prepending
the text `X\n\n` to the document `Y` yields `X\n\nY`, whose unique
decomposition before the original content is the inserted piece `X\n\n` —
which ends with two newlines, not exactly one: the applier only adds a
missing newline and never collapses existing ones. -/
theorem C7_counterexample :
    apply_edits_locally env0 "Y".data
      [[("op", PyVal.str "prepend".data), ("text", PyVal.str "X\n\n".data)]] =
      .ok "X\n\nY".data ∧
    ¬ ∃ pfx : List Char, "X\n\nY".data = pfx ++ "Y".data ∧
        endsWithExactlyOneNewline pfx = true := by
  refine ⟨rfl, ?_⟩
  rintro ⟨pfx, hp, he⟩
  have hpfx : pfx = "X\n\n".data := by
    have h2 : pfx ++ "Y".data = "X\n\n".data ++ "Y".data := by rw [← hp]; rfl
    exact List.append_cancel_right h2
  rw [hpfx] at he
  exact absurd he (by decide)

/-- Claim C9: the edit normalizer maps the aliased descriptor
`(op := replace_method, class_name := Foo, method := Bar, new_method := ...)`
to the canonical descriptor with `className`, `methodName` and
`replacement`, the alias keys removed. -/
theorem C9_alias_normalization :
    unwrap_and_alias
      [("op", PyVal.str "replace_method".data), ("class_name", PyVal.str "Foo".data),
       ("method", PyVal.str "Bar".data), ("new_method", PyVal.str "...".data)] =
    .ok [("op", PyVal.str "replace_method".data), ("className", PyVal.str "Foo".data),
         ("methodName", PyVal.str "Bar".data), ("replacement", PyVal.str "...".data)] := rfl

/-- Claim C8 (modelled from the spec, the channel code not being among the
sources): a greeting line that does not contain the framing marker makes
`connect()` return failure with the socket closed and no framing mode set —
the channel retains no live socket and there is no unframed fallback. -/
theorem C8_handshake_fails_closed (g : List Char)
    (h : containsSub framingMarker g = false) :
    connect (some g) = (false, ⟨Option.none, false⟩) := by
  simp [connect, h]

theorem C8_witness :
    containsSub framingMarker "MCP/0.1\n".data = false ∧
    connect (some "MCP/0.1\n".data) = (false, ⟨Option.none, false⟩) :=
  ⟨rfl, C8_handshake_fails_closed "MCP/0.1\n".data rfl⟩

/-- Claim C10, amended: for every URI other than the fixed spec-document
URI, either the safe-path resolution fails — then both `read_resource` and
`find_in_file` return the structured `Resource not found` failure and the
result does not depend on the filesystem at all (nothing is read) — or it
yields a path lexically confined under the project root. -/
theorem C10_path_confinement (fs fs2 : PyPath → Option (List Char)) (project : PyPath)
    (uri : List Char) (hspec : (uri == specUri) = false) :
    (resolve_safe_path_from_uri uri project = Option.none →
        read_resource fs project uri = .notFound uri ∧
        find_in_file fs project uri = .notFound uri ∧
        read_resource fs project uri = read_resource fs2 project uri) ∧
    (∀ p, resolve_safe_path_from_uri uri project = some p →
        relativeToOk p project = true) := by
  constructor
  · intro h
    refine ⟨?_, ?_, ?_⟩ <;> simp [read_resource, find_in_file, hspec, h]
  · intro p hp
    unfold resolve_safe_path_from_uri at hp
    split at hp
    · cases hp
    · split at hp
      next hrel => injection hp with hpp; rw [← hpp]; exact hrel
      next => cases hp

/-- Claim C10, counterexample to the unqualified statement: the URI
`unity://spec/script-edits` matches none of the three accepted scheme
prefixes (its safe-path resolution is `None`), yet `read_resource` serves
the embedded spec document instead of returning `Resource not found`. -/
theorem C10_counterexample :
    read_resource (fun _ => Option.none) ["proj".data] specUri = .specServed ∧
    resolve_safe_path_from_uri specUri ["proj".data] = Option.none := ⟨rfl, rfl⟩

theorem scan_false_not_structural (es : List Dict) (ops : List (List Char))
    (hfs : forwardScan es = .ok false) (hops : opsOfEdits es = .ok ops) :
    ∀ o ∈ ops, structuralForwardKinds.contains o = false := by
  induction es generalizing ops with
  | nil =>
    injection hops with h
    subst h
    intro o ho
    cases ho
  | cons e rest ih =>
    unfold forwardScan at hfs
    unfold opsOfEdits at hops
    split at hfs
    next => cases hfs
    next op heq =>
      split at hops
      next => cases hops
      next op2 heq2 =>
        rw [heq] at heq2
        injection heq2 with h
        subst h
        split at hops
        next => cases hops
        next ops2 heq3 =>
          injection hops with h
          subst h
          by_cases hc : structuralForwardKinds.contains op = true
          · rw [if_pos hc] at hfs; cases hfs
          · have hc2 : structuralForwardKinds.contains op = false := by simpa using hc
            rw [if_neg hc] at hfs
            intro o ho
            rcases List.mem_cons.mp ho with h | h
            · subst h; exact hc2
            · exact ih ops2 hfs heq3 o h

theorem structuredKinds_sub_structural (o : List Char)
    (h : structuredKinds.contains o = true) :
    structuralForwardKinds.contains o = true := by
  have h2 : o = "replace_class".data ∨ o = "delete_class".data ∨ o = "replace_method".data ∨
      o = "delete_method".data ∨ o = "insert_method".data ∨ o = "anchor_insert".data := by
    simpa [structuredKinds] using h
  rcases h2 with h | h | h | h | h | h <;> simp [h, structuralForwardKinds]

theorem subset_structural_scan_false_nil (es : List Dict) (ops : List (List Char))
    (hfs : forwardScan es = .ok false) (hops : opsOfEdits es = .ok ops)
    (hsub : subsetB ops structuredKinds = true) : es = [] := by
  cases es with
  | nil => rfl
  | cons e rest =>
    exfalso
    have hall := hops
    unfold opsOfEdits at hall
    split at hall
    next => cases hall
    next op heq =>
      split at hall
      next => cases hall
      next ops2 heq3 =>
        injection hall with h
        have hmem : op ∈ ops := by rw [← h]; exact List.mem_cons_self op ops2
        have h1 : structuralForwardKinds.contains op = false :=
          scan_false_not_structural (e :: rest) ops hfs hops op hmem
        have h2 : structuredKinds.contains op = true := by
          unfold subsetB at hsub
          simp only [List.all_eq_true] at hsub
          exact hsub op hmem
        rw [structuredKinds_sub_structural op h2] at h1
        cases h1

theorem afterRead_sent_shape (env : Env) (contents : List Char) (es : List Dict)
    (options : Dict) (hfs : forwardScan es = .ok false) :
    (afterRead env contents es options).2 = [] ∨
    (∃ ae o, (afterRead env contents es options).2 =
        [Sent.applyTextEdits ae (env.hash contents) o]) ∨
    (∃ o, (afterRead env contents es options).2 = [Sent.editCmd es o]) := by
  unfold afterRead
  cases hops : opsOfEdits es with
  | error u => left; simp [hops]
  | ok ops =>
    by_cases hsub : subsetB ops structuredKinds = true
    · have hnil := subset_structural_scan_false_nil es ops hfs hops hsub
      subst hnil
      injection hops with h
      subst h
      right; right
      exact ⟨atOptions options, rfl⟩
    · have hsub2 : subsetB ops structuredKinds = false := by simpa using hsub
      cases hcl : convertLoop env contents [] es with
      | error m => left; simp [hops, hsub2, hcl]
      | ok res =>
        by_cases hemp : res.2.isEmpty = true
        · left; simp [hops, hsub2, hcl, hemp]
        · have hemp2 : res.2.isEmpty = false := by simpa using hemp
          right; left
          exact ⟨res.2, atOptions options, by simp [hops, hsub2, hcl, hemp2]⟩

theorem script_trace_shape (env : Env) (readResp : Option (Option (List Char)))
    (name path : List Char) (edits : List Dict) (options : Dict) :
    (script_apply_edits env readResp name path edits options).2 = [] ∨
    (∃ es o, (script_apply_edits env readResp name path edits options).2 =
        [Sent.editCmd es o]) ∨
    (script_apply_edits env readResp name path edits options).2 = [Sent.readCmd] ∨
    (∃ contents ae o, readResp = some (some contents) ∧
        (script_apply_edits env readResp name path edits options).2 =
          [Sent.readCmd, Sent.applyTextEdits ae (env.hash contents) o]) ∨
    (∃ es o, (script_apply_edits env readResp name path edits options).2 =
        [Sent.readCmd, Sent.editCmd es o]) := by
  cases hn : normalizeEdits name edits with
  | error u => left; simp [script_apply_edits, hn]
  | ok es =>
    cases hv : firstValidationError es with
    | error u => left; simp [script_apply_edits, hn, hv]
    | ok vo =>
      cases vo with
      | some m => left; simp [script_apply_edits, hn, hv]
      | none =>
        cases hfs : forwardScan es with
        | error u => left; simp [script_apply_edits, hn, hv, hfs]
        | ok b =>
          cases b with
          | true =>
            right; left
            exact ⟨es, structOpts es options, by simp [script_apply_edits, hn, hv, hfs]⟩
          | false =>
            cases readResp with
            | none => right; right; left; simp [script_apply_edits, hn, hv, hfs]
            | some oc =>
              cases oc with
              | none => right; right; left; simp [script_apply_edits, hn, hv, hfs]
              | some contents =>
                have hred : (script_apply_edits env (some (some contents)) name path edits
                    options).2 = Sent.readCmd :: (afterRead env contents es options).2 := by
                  simp [script_apply_edits, hn, hv, hfs]
                rcases afterRead_sent_shape env contents es options hfs with
                  h | ⟨ae, o2, h⟩ | ⟨o2, h⟩
                · right; right; left
                  rw [hred, h]
                · right; right; right; left
                  refine ⟨contents, ae, o2, rfl, ?_⟩
                  rw [hred, h]
                · right; right; right; right
                  refine ⟨es, o2, ?_⟩
                  rw [hred, h]

/-- Claim C3: every `apply_text_edits` write-back sent by
`script_apply_edits` carries a `precondition_sha256` equal to the hash of
the document content exactly as fetched by the preceding read, and the
plain `update` write-back (which carries no precondition) is never sent on
any reachable path. -/
theorem C3_precondition_sha256 (env : Env) (readResp : Option (Option (List Char)))
    (name path : List Char) (edits : List Dict) (options : Dict) :
    (∀ contents ae sha o, readResp = some (some contents) →
        Sent.applyTextEdits ae sha o ∈
          (script_apply_edits env readResp name path edits options).2 →
        sha = env.hash contents) ∧
    (∀ enc o, Sent.updateCmd enc o ∉
        (script_apply_edits env readResp name path edits options).2) := by
  have hs := script_trace_shape env readResp name path edits options
  constructor
  · intro contents ae sha o hrd hmem
    rcases hs with h | ⟨es, o2, h⟩ | h | ⟨c2, ae2, o2, hr2, h⟩ | ⟨es, o2, h⟩
    · rw [h] at hmem; cases hmem
    · rw [h] at hmem; simp at hmem
    · rw [h] at hmem; simp at hmem
    · rw [h] at hmem
      simp only [List.mem_cons, List.mem_singleton] at hmem
      rcases hmem with hmem | hmem | hmem
      · cases hmem
      · rw [hrd] at hr2
        injection hr2 with hr3
        injection hr3 with hr4
        injection hmem with h1 h2 h3
        rw [h2, hr4]
      · cases hmem
    · rw [h] at hmem; simp at hmem
  · intro enc o hmem
    rcases hs with h | ⟨es, o2, h⟩ | h | ⟨c2, ae2, o2, hr2, h⟩ | ⟨es, o2, h⟩ <;>
      rw [h] at hmem <;> simp at hmem

theorem C3_witness :
    ('H' :: "hello\n".data) = env0.hash "hello\n".data :=
  (C3_precondition_sha256 env0 (some (some "hello\n".data)) "Foo".data [] [rrEdit] []).1
    "hello\n".data
    [[("startLine", PyVal.int 1), ("startCol", PyVal.int 1), ("endLine", PyVal.int 1),
      ("endCol", PyVal.int 1), ("newText", PyVal.str "x".data)]]
    ('H' :: "hello\n".data)
    [("refresh", PyVal.str "immediate".data), ("validate", PyVal.str "standard".data)]
    rfl
    (by
      have ht : (script_apply_edits env0 (some (some "hello\n".data)) "Foo".data []
          [rrEdit] []).2 =
          [Sent.readCmd,
           Sent.applyTextEdits
             [[("startLine", PyVal.int 1), ("startCol", PyVal.int 1), ("endLine", PyVal.int 1),
               ("endCol", PyVal.int 1), ("newText", PyVal.str "x".data)]]
             ('H' :: "hello\n".data)
             [("refresh", PyVal.str "immediate".data),
              ("validate", PyVal.str "standard".data)]] := rfl
      rw [ht]
      exact List.Mem.tail _ (List.Mem.head _))

/-- Claim C4, amended: a batch whose normalized form contains at least one
structural op either fails local validation (or aborts on a malformed
descriptor) with no remote command sent at all, or is forwarded whole — as
a single `edit` command carrying the entire normalized batch — and in no
case is any of its operations applied locally as raw text (no
`apply_text_edits` and no `update` is ever sent for it). -/
theorem C4_structural_forwarding (env : Env) (readResp : Option (Option (List Char)))
    (name path : List Char) (edits : List Dict) (options : Dict) (es : List Dict)
    (hnorm : normalizeEdits name edits = .ok es)
    (hstruct : forwardScan es = .ok true) :
    script_apply_edits env readResp name path edits options =
      (match firstValidationError es with
       | .error _ => (Outcome.uncaught, [])
       | .ok (some m) => (Outcome.validationError m, [])
       | .ok Option.none =>
         (Outcome.forwarded, [Sent.editCmd es (structOpts es options)])) := by
  unfold script_apply_edits
  simp only [hnorm]
  cases hv : firstValidationError es with
  | error u => rfl
  | ok vo =>
    cases vo with
    | some m => rfl
    | none => simp only [hstruct]

/-- Claim C4, counterexample to the unqualified statement: the batch
`(op := replace_method)` normalizes to a structural edit, yet nothing is
forwarded — validation rejects it locally (missing `methodName`) and the
trace of remote commands is empty. -/
theorem C4_counterexample :
    normalizeEdits "Foo".data [[("op", PyVal.str "replace_method".data)]] =
      .ok [[("op", PyVal.str "replace_method".data), ("className", PyVal.str "Foo".data)]] ∧
    forwardScan [[("op", PyVal.str "replace_method".data),
                  ("className", PyVal.str "Foo".data)]] = .ok true ∧
    script_apply_edits env0 Option.none "Foo".data [] [[("op", PyVal.str "replace_method".data)]] [] =
      (Outcome.validationError "replace_method requires 'methodName'.".data, []) :=
  ⟨rfl, rfl, rfl⟩

theorem C4_witness :
    script_apply_edits env0 Option.none "Foo".data [] [structEdit] [] =
      (Outcome.forwarded, [Sent.editCmd [structEditN] (structOpts [structEditN] [])]) :=
  C4_structural_forwarding env0 Option.none "Foo".data [] [structEdit] [] [structEditN] rfl rfl

/-- Claim C1, evaluated at the failing input (code bug): with
`options.preview` truthy, a batch holding one textual `replace_range` edit
still sends the `apply_text_edits` write to the remote side — the
preview-respecting branch of `script_apply_edits` is unreachable for such
batches, so preview is not side-effect-free as the code's own comments and
the spec demand. -/
theorem C1_preview_sends_write :
    truthy (dGetD previewOpts "preview" PyVal.noneV) = true ∧
    script_apply_edits env0 (some (some "hello\n".data)) "Foo".data [] [rrEdit] previewOpts =
      (Outcome.forwarded,
       [Sent.readCmd,
        Sent.applyTextEdits
          [[("startLine", PyVal.int 1), ("startCol", PyVal.int 1), ("endLine", PyVal.int 1),
            ("endCol", PyVal.int 1), ("newText", PyVal.str "x".data)]]
          (env0.hash "hello\n".data)
          [("refresh", PyVal.str "immediate".data),
           ("validate", PyVal.str "standard".data)]]) :=
  ⟨rfl, rfl⟩

theorem C10_witness :
    read_resource (fun _ => Option.none) ["proj".data] "http://x".data =
      .notFound "http://x".data ∧
    find_in_file (fun _ => Option.none) ["proj".data] "http://x".data =
      .notFound "http://x".data :=
  ⟨((C10_path_confinement (fun _ => Option.none) (fun _ => some []) ["proj".data]
      "http://x".data rfl).1 rfl).1,
   (((C10_path_confinement (fun _ => Option.none) (fun _ => some []) ["proj".data]
      "http://x".data rfl).1 rfl).2).1⟩

end UnityMcp
